import Mathlib

/-!
Verification development for the self-healing locator resolution engine
(`features/environment/self_healing.py`, `resources/locator_predict_model.py`,
`archive/utils/clean_db.py`).

Modelling conventions, fixed once for the whole file:

* Python strings are Lean `String`s; the Python operations used by the code
  (`lower`, `split('_')`, substring `in`, `startswith`, `strip`, slicing)
  are re-implemented over `String.data` so that every definition reduces
  inside the kernel.  All inputs of interest are sequences of code points in
  both languages, so the models agree with CPython on every input.
* Python floats appear only as score and timestamp constants that are
  compared and occasionally added or halved.  Every score constant in the
  code is a decimal with at most three fractional digits, so scores are
  embedded exactly as integers in thousandths (0.92 ↦ 920); timestamps
  (`time.time()`, `last_used`) are embedded as integer epoch seconds.
  Both embeddings are order-faithful for every comparison the code performs.
  (The only spot where real float semantics differ is ulp-level:
  `0.8 + 0.1 > 0.9` for binary64 while the exact model gives a tie; no
  theorem below depends on the relative order of those two constants.)
* Python dicts are association lists (JSON objects are ordered), lists are
  Lean lists, and `list.remove(x)` is `List.erase` (first occurrence; every
  call site below has the element present, so the `ValueError` branch of
  `remove` is unreachable).
* Exceptions: Playwright's `wait_for` either succeeds or times out; the
  page adapter is the abstract `PageModel` with a boolean visibility wait,
  exactly the `waitVisible -> ok|timeout` port of the design.  A fallible
  top-level call (`get_element`) returns `Except`.
* BeautifulSoup is the abstract DOM-parser port: a parsed document (`Soup`)
  is its tags in document order plus its text nodes (each with its parent
  tag); `soup.select`/`find_all` are modelled over that structure, including
  a matcher for the (fixed, finite) CSS selector grammar the code passes to
  `select`.
-/

namespace SelfHealing

/-! ## Python string primitives, code-point faithful -/

/-- Python `str.lower` (ASCII-relevant part; the code only lowercases
selectors, ids and locator ids). -/
def lowerStr (s : String) : String := ⟨s.data.map Char.toLower⟩

/-- Splitting a character list at every occurrence of `c`
(Python `str.split(c)`, which keeps empty chunks). -/
def splitCh (c : Char) : List Char → List (List Char)
  | [] => [[]]
  | x :: xs =>
    let r := splitCh c xs
    if x == c then [] :: r
    else
      match r with
      | [] => [[x]]
      | y :: ys => (x :: y) :: ys

/-- Python `locator_id.split('_')`. -/
def splitUnderscore (s : String) : List String :=
  (splitCh '_' s.data).map String.mk

/-- Python `str.split()` with no argument: split on runs of whitespace,
dropping empty chunks (used by BeautifulSoup to turn a `class` attribute
into a class list). -/
def splitWs (s : String) : List String :=
  ((splitCh ' ' s.data).filter (fun l => !l.isEmpty)).map String.mk

/-- Python substring test `sub in s`. -/
def strContains (s sub : String) : Bool :=
  go s.data sub.data
where
  go : List Char → List Char → Bool
    | [], sub => sub.isEmpty
    | l@(_ :: t), sub => sub.isPrefixOf l || go t sub

/-- Python `s.startswith(p)`. -/
def strStartsWith (s p : String) : Bool := p.data.isPrefixOf s.data

/-- Python slicing `s[n:]`. -/
def strDrop (s : String) (n : Nat) : String := ⟨s.data.drop n⟩

/-- Python `str.strip()` (whitespace at both ends). -/
def strTrim (s : String) : String :=
  ⟨(s.data.dropWhile Char.isWhitespace).reverse.dropWhile Char.isWhitespace |>.reverse⟩

/-! ## Data model -/

/-- One stored strategy: `{'type': ..., 'selector': ..., 'last_used': ...}`.
`last_used` is epoch seconds. -/
structure Strategy where
  type : String
  selector : String
  last_used : ℤ
deriving DecidableEq, Repr

/-- The (type, selector) key of a strategy; the spec's uniqueness invariant
is phrased over these. -/
def stratKeys (l : List Strategy) : List (String × String) :=
  l.map (fun s => (s.type, s.selector))

/-- The locator store file: a JSON object mapping each locator id to
`{'strategies': [...]}`.  JSON objects and Python dicts preserve insertion
order, so the store is an association list. -/
abbrev LocatorDb : Type := List (String × List Strategy)

/-- Dict lookup `db[locator_id]` / `locator_id in db`. -/
def lookupDb (db : LocatorDb) (lid : String) : Option (List Strategy) :=
  (db.find? (fun e => e.1 == lid)).map (fun e => e.2)

/-- Dict assignment `db[locator_id]['strategies'] = v` for an existing key. -/
def updateDbEntry (db : LocatorDb) (lid : String) (v : List Strategy) : LocatorDb :=
  db.map (fun e => if e.1 == lid then (e.1, v) else e)

/-- One entry of the prediction model's training log. -/
structure TrainedCase where
  locator_id : String
  selector : String
  selector_type : String
  timestamp : ℤ
deriving DecidableEq, Repr

/-- The prediction model's persisted data (the fields the code reads). -/
structure ModelData where
  trained_cases : List TrainedCase
deriving DecidableEq, Repr

/-- A ranked prediction `{'selector': ..., 'type': ..., 'score': ...}`
returned by `LocatorPredictor.predict` (score in thousandths). -/
structure Prediction where
  selector : String
  ptype : String
  score : ℤ
deriving DecidableEq, Repr

/-! ## The DOM-parser port (BeautifulSoup model) -/

/-- A parsed HTML tag: name, attributes (the `class` attribute is stored as
its space-joined string form) and rendered text. -/
structure Tag where
  name : String
  attrs : List (String × String)
  text : String
deriving DecidableEq, Repr

/-- A parsed document: tags in document order, and text nodes (string, parent
tag) in document order. -/
structure Soup where
  tags : List Tag
  strings : List (String × Tag)
deriving DecidableEq, Repr

/-- `tag.get(attr)`. -/
def attrVal (t : Tag) (a : String) : Option String :=
  (t.attrs.find? (fun e => e.1 == a)).map (fun e => e.2)

/-- `tag.get(attr)` seen as a truthy value plus a predicate on the string:
Python `tag.get(a) and pred(tag.get(a))` (absent and empty are falsy). -/
def attrTruthy (t : Tag) (a : String) (pred : String → Bool) : Bool :=
  match attrVal t a with
  | none => false
  | some v => v != "" && pred v

/-- The parsed form of one CSS selector from the code's fixed selector lists:
optional tag name, optional `.class`, optional `[attr]` / `[attr='v']` /
`[attr*='v']` suffix. -/
structure SimpleSel where
  tag : Option String
  cls : Option String
  attr : Option (String × Option (Bool × String))
deriving Repr

/-- Splits a character list at the first occurrence of `c`; none if absent. -/
def breakAt (c : Char) : List Char → Option (List Char × List Char)
  | [] => none
  | x :: xs =>
    if x == c then some ([], xs)
    else (breakAt c xs).map (fun p => (x :: p.1, p.2))

/-- Parses the attribute part `attr`, `attr='v'` or `attr*='v'` (between the
brackets). -/
def parseAttrPart (inner : List Char) : String × Option (Bool × String) :=
  match breakAt '=' inner with
  | none => (String.mk inner, none)
  | some (a, v) =>
    let sub := a.getLast? == some '*'
    let aName := if sub then a.dropLast else a
    let val := (v.dropWhile (· == '\x27')).reverse.dropWhile (· == '\x27') |>.reverse
    (String.mk aName, some (sub, String.mk val))

/-- Parses one selector of the grammar above. -/
def parseSel (sel : String) : SimpleSel :=
  let cs := sel.data
  let (base, attr) :=
    match breakAt '[' cs with
    | none => (cs, none)
    | some (b, rest) =>
      let inner := rest.takeWhile (· != ']')
      (b, some (parseAttrPart inner))
  match base with
  | '.' :: clsChars => { tag := none, cls := some (String.mk clsChars), attr := attr }
  | _ =>
    match breakAt '.' base with
    | some (t, c) => { tag := some (String.mk t), cls := some (String.mk c), attr := attr }
    | none =>
      { tag := if base.isEmpty then none else some (String.mk base), cls := none, attr := attr }

/-- Whether a tag matches one parsed selector (CSS semantics: `.c` tests
membership in the class list, `[a]` presence, `[a='v']` exact value,
`[a*='v']` substring of the value). -/
def selMatches (sel : String) (t : Tag) : Bool :=
  let p := parseSel sel
  (match p.tag with
   | none => true
   | some tg => t.name == tg) &&
  (match p.cls with
   | none => true
   | some c =>
     match attrVal t "class" with
     | none => false
     | some v => (splitWs v).contains c) &&
  (match p.attr with
   | none => true
   | some (a, none) => (attrVal t a).isSome
   | some (a, some (sub, v)) =>
     match attrVal t a with
     | none => false
     | some w => if sub then strContains w v else w == v)

/-- `soup.select(selector)`, document order. -/
def soupSelect (soup : Soup) (sel : String) : List Tag :=
  soup.tags.filter (selMatches sel)

/-- `soup.find_all(names)` for a list of tag names. -/
def findAllByNames (soup : Soup) (names : List String) : List Tag :=
  soup.tags.filter (fun t => names.contains t.name)

/-- `soup.find_all(attrs={a: lambda x: x and pred(x)})`: tags whose attribute
`a` is present, non-empty and satisfies the predicate (BeautifulSoup calls
the lambda with `None` when the attribute is absent, which `x and ...`
turns into `False`). -/
def findAllAttrCond (soup : Soup) (a : String) (pred : String → Bool) : List Tag :=
  soup.tags.filter (fun t => attrTruthy t a pred)

/-- `soup.find_all(text=lambda t: pred(t) if t else False)`: the document's
text nodes whose (non-empty) string satisfies the predicate. -/
def findAllStrings (soup : Soup) (pred : String → Bool) : List (String × Tag) :=
  soup.strings.filter (fun n => n.1 != "" && pred n.1)

/-! ## Python's stable sort

`sorted(xs, key=k, reverse=True)` is the unique stable descending sort by
`k`; any stable descending insertion sort computes exactly the same list,
and the one below is structurally recursive so the kernel can run it. -/

/-- Inserts `x` into a descending-sorted list, before the first element whose
key is not larger — so an element equal in key to `x` that originated later
in the input stays behind `x` (stability). -/
def insortDescBy (key : α → ℤ) (x : α) : List α → List α
  | [] => [x]
  | y :: ys => if key x < key y then y :: insortDescBy key x ys else x :: y :: ys

/-- Stable descending sort by an integer key: the model of
`sorted(xs, key=k, reverse=True)`. -/
def sortDescBy (key : α → ℤ) : List α → List α
  | [] => []
  | x :: xs => insortDescBy key x (sortDescBy key xs)

/-! ## Candidate generators (`_find_text_based_elements`,
`_find_attribute_based_elements`, `_find_form_elements`) -/

/-- An ephemeral candidate `{'element': ..., 'type': ..., 'selector': ...,
'score': ...}` (score in thousandths).  Prediction candidates carry no
`'element'` key, hence the `Option`. -/
structure Candidate where
  element : Option Tag
  ctype : String
  selector : String
  score : ℤ
deriving DecidableEq, Repr

/-- The high-priority form selectors scanned unconditionally at the top of
`_find_text_based_elements`. -/
def textFormSelectors : List String :=
  ["input[type='search']", "input[type='text']", "input[placeholder]",
   ".search-input", "input.search", "input[name='search']", "input[name='q']"]

def textFormSection (soup : Soup) : List Candidate :=
  textFormSelectors.flatMap (fun sel =>
    (soupSelect soup sel).map (fun t =>
      { element := some t, ctype := "css", selector := sel, score := 900 }))

/-- The input-keyword guard `any(h in ["arama", ...] for h in hints)` and its
selector scan (score 0.95). -/
def textInputKwSection (soup : Soup) (hints : List String) : List Candidate :=
  if hints.any (fun h =>
      (["arama", "search", "kutu", "input", "field", "text", "area"]).contains h) then
    (["input[type='search']", "input[type='text']", ".search-input", "[placeholder]"]).flatMap
      (fun sel => (soupSelect soup sel).map (fun t =>
        { element := some t, ctype := "css", selector := sel, score := 950 }))
  else []

/-- The button-keyword guard and its selector scan (score 0.92). -/
def textButtonKwSection (soup : Soup) (hints : List String) : List Candidate :=
  if hints.any (fun h =>
      (["buton", "button", "submit", "ara", "search", "click"]).contains h) then
    (["button", "input[type='submit']", ".search-button", "button.search"]).flatMap
      (fun sel => (soupSelect soup sel).map (fun t =>
        { element := some t, ctype := "css", selector := sel, score := 920 }))
  else []

def inputElementNames : List String := ["input", "textarea", "select", "button"]

def interactiveElementNames : List String :=
  inputElementNames ++ ["a", "button", "details", "dialog", "menu"]

/-- The per-hint text-content scan of `_find_text_based_elements`: text nodes
containing the hint, candidate on the parent unless it is an input element;
interactive parents get 0.8 instead of 0.7 (the code appends with 0.7 and
then overwrites `elements[-1]['score']`). -/
def textHintSection (soup : Soup) (hints : List String) : List Candidate :=
  hints.flatMap (fun hint =>
    if 3 < hint.length then
      (findAllStrings soup (fun txt => strContains (lowerStr txt) hint)).filterMap
        (fun n =>
          if inputElementNames.contains n.2.name then none
          else some
            { element := some n.2, ctype := "text", selector := strTrim n.1,
              score := if interactiveElementNames.contains n.2.name then 800 else 700 })
    else [])

/-- `_find_text_based_elements`: the four scans above, appended in program
order. -/
def findTextBasedElements (soup : Soup) (hints : List String) : List Candidate :=
  textFormSection soup ++ textInputKwSection soup hints
    ++ textButtonKwSection soup hints ++ textHintSection soup hints

/-- The input selectors scanned at the top of
`_find_attribute_based_elements`. -/
def attrInputSelectors : List String :=
  ["input[type='search']", "input[type='text']", ".search-input",
   "[placeholder*='ara']", "input[name='search']", "textarea", "select"]

/-- The top scan of `_find_attribute_based_elements`: one 0.85 candidate per
(selector, matching tag, hint of length > 3). -/
def attrInputSelSection (soup : Soup) (hints : List String) : List Candidate :=
  attrInputSelectors.flatMap (fun sel =>
    (soupSelect soup sel).flatMap (fun t =>
      hints.filterMap (fun h =>
        if 3 < h.length then
          some { element := some t, ctype := "css", selector := sel, score := 850 }
        else none)))

/-- BeautifulSoup's class list joined with dots: `'.'.join(tag['class'])`. -/
def classSelectorOf (v : String) : String := String.intercalate "." (splitWs v)

/-- The per-hint id/class/name/placeholder scan of
`_find_attribute_based_elements`. -/
def attrHintSection (soup : Soup) (hints : List String) : List Candidate :=
  hints.flatMap (fun hint =>
    if 3 < hint.length then
      ((findAllAttrCond soup "id" (fun v => strContains (lowerStr v) hint)).filterMap
        (fun t => (attrVal t "id").map (fun v =>
          { element := some t, ctype := "css", selector := "#" ++ v, score := 900 })))
      ++ ((findAllAttrCond soup "class" (fun v => strContains (lowerStr v) hint)).filterMap
        (fun t => (attrVal t "class").map (fun v =>
          { element := some t, ctype := "css", selector := "." ++ classSelectorOf v,
            score := 800 })))
      ++ ((findAllAttrCond soup "name" (fun v => strContains (lowerStr v) hint)).filterMap
        (fun t => (attrVal t "name").map (fun v =>
          { element := some t, ctype := "css", selector := "[name='" ++ v ++ "']",
            score := 850 })))
      ++ ((findAllAttrCond soup "placeholder" (fun v => strContains (lowerStr v) hint)).map
        (fun t =>
          { element := some t, ctype := "css",
            selector := "[placeholder*='" ++ hint ++ "']", score := 850 }))
    else [])

/-- `_find_attribute_based_elements`. -/
def findAttributeBasedElements (soup : Soup) (hints : List String) : List Candidate :=
  attrInputSelSection soup hints ++ attrHintSection soup hints

/-- The input-element scan of `_find_form_elements` for one tag and one hint
(id, name, placeholder, type, class branches, in program order; exact
matches overwrite the score the code just appended). -/
def formInputCandidates (hint : String) (t : Tag) : List Candidate :=
  (match attrVal t "id" with
   | some v =>
     if v != "" && strContains (lowerStr v) hint then
       [{ element := some t, ctype := "css", selector := "#" ++ v,
          score := if lowerStr v == lowerStr hint then 950 else 900 }]
     else []
   | none => []) ++
  (match attrVal t "name" with
   | some v =>
     if v != "" && strContains (lowerStr v) hint then
       [{ element := some t, ctype := "css",
          selector := t.name ++ "[name='" ++ v ++ "']",
          score := if lowerStr v == lowerStr hint then 920 else 850 }]
     else []
   | none => []) ++
  (match attrVal t "placeholder" with
   | some v =>
     if v != "" && strContains (lowerStr v) hint then
       [{ element := some t, ctype := "css",
          selector := t.name ++ "[placeholder*='" ++ hint ++ "']", score := 880 }]
     else []
   | none => []) ++
  (match attrVal t "type" with
   | some v =>
     if v != "" && strContains (lowerStr v) hint then
       [{ element := some t, ctype := "css",
          selector := t.name ++ "[type='" ++ v ++ "']", score := 820 }]
     else []
   | none => []) ++
  (match attrVal t "class" with
   | some v =>
     if strContains (lowerStr v) hint then
       [{ element := some t, ctype := "css", selector := "." ++ classSelectorOf v,
          score := 800 }]
     else []
   | none => [])

/-- The button/anchor scan of `_find_form_elements` for one tag and one hint
(text, alt, aria-label branches). -/
def formButtonCandidates (hint : String) (t : Tag) : List Candidate :=
  (if t.text != "" && strContains (lowerStr t.text) hint then
     [{ element := some t, ctype := "text", selector := strTrim t.text,
        score := if lowerStr t.text == lowerStr hint then 850 else 750 }]
   else []) ++
  (if attrTruthy t "alt" (fun v => strContains (lowerStr v) hint) then
     [{ element := some t, ctype := "css",
        selector := t.name ++ "[alt*='" ++ hint ++ "']", score := 800 }]
   else []) ++
  (if attrTruthy t "aria-label" (fun v => strContains (lowerStr v) hint) then
     [{ element := some t, ctype := "css",
        selector := t.name ++ "[aria-label*='" ++ hint ++ "']", score := 820 }]
   else [])

/-- `_find_form_elements`. -/
def findFormElements (soup : Soup) (hints : List String) : List Candidate :=
  hints.flatMap (fun hint =>
    if 3 < hint.length then
      (findAllByNames soup ["input", "textarea", "select"]).flatMap
        (formInputCandidates hint)
      ++ (findAllByNames soup ["button", "a"]).flatMap (formButtonCandidates hint)
    else [])

/-! ## Strategy store operations -/

/-- The three states of the backing file `_load_locator_db` can meet. -/
inductive DbFileState where
  | absent
  | corrupt
  | valid (db : LocatorDb)

/-- `_load_locator_db`: missing file and unparseable file both yield the
empty mapping (the `json.load` exception is caught and logged); a valid file
yields its parsed contents.  The function is total: no outcome reaches the
caller as an exception. -/
def loadLocatorDb : DbFileState → LocatorDb
  | .absent => []
  | .corrupt => []
  | .valid db => db

/-- The in-memory loop of `_add_strategy_to_database`: walk the list, update
`last_used` of the first entry with the same (type, selector) and stop
(`break`), reporting whether a match was found. -/
def touchFirst (s : Strategy) : List Strategy → List Strategy × Bool
  | [] => ([], false)
  | x :: xs =>
    if x.type == s.type && x.selector == s.selector then
      ({ x with last_used := s.last_used } :: xs, true)
    else
      let r := touchFirst s xs
      (x :: r.1, r.2)

/-- The list-level effect of `_add_strategy_to_database` on one locator's
strategy list: touch in place if the (type, selector) pair exists, insert at
index 0 otherwise. -/
def addToStrategies (l : List Strategy) (s : Strategy) : List Strategy :=
  let r := touchFirst s l
  if r.2 then r.1 else s :: l

/-- Engine state: the in-memory store, the persisted store file, the loaded
predictor (`None` when the model failed to load) and the persisted model
file.  Persistence is write-through: each mutating operation below ends by
overwriting the file with the current mapping (`_save_locator_db` /
`train`'s `json.dump`). -/
structure EngineState where
  locator_db : LocatorDb
  db_file : LocatorDb
  predictor : Option ModelData
  model_file : Option ModelData
deriving DecidableEq

/-- `_add_strategy_to_database` plus its final `_save_locator_db`: a new
locator id gets the fresh record `{'strategies': [strategy]}` (dict insertion
appends the key), an existing one gets `addToStrategies`. -/
def addStrategyToDatabase (st : EngineState) (lid : String) (s : Strategy) :
    EngineState :=
  let db' :=
    match lookupDb st.locator_db lid with
    | none => st.locator_db ++ [(lid, [s])]
    | some l => updateDbEntry st.locator_db lid (addToStrategies l s)
  { st with locator_db := db', db_file := db' }

/-- The list-level effect of `_promote_successful_strategy`:
`remove(strategy)` (first occurrence) then `insert(0, strategy)`. -/
def promoteStrats (l : List Strategy) (s : Strategy) : List Strategy :=
  s :: l.erase s

/-- `_promote_successful_strategy` plus its `_save_locator_db`.  (The code
indexes `self.locator_db[locator_id]` unconditionally; every call site has
just read a strategy of that locator, so the missing-key branch below is
unreachable.) -/
def promoteSuccessfulStrategy (st : EngineState) (lid : String) (s : Strategy) :
    EngineState :=
  match lookupDb st.locator_db lid with
  | none => st
  | some l =>
    let db' := updateDbEntry st.locator_db lid (promoteStrats l s)
    { st with locator_db := db', db_file := db' }

/-! ## The prediction model (`LocatorPredictor`) -/

/-- The prediction pool `predict` builds before ranking: the id guess, one
text and one XPath candidate per hint of length at least 4, and one
candidate per trained case (selector and type verbatim, fixed score 0.75)
with no filtering against the page. -/
def predictAll (lid : String) (hints : List String) (md : ModelData) :
    List Prediction :=
  [{ selector := "#" ++ lid, ptype := "css", score := 800 }]
  ++ hints.flatMap (fun h =>
      if h.length < 4 then []
      else
        [{ selector := h, ptype := "text", score := 700 },
         { selector := "//*[contains(text(), '" ++ h ++ "')]", ptype := "xpath",
           score := 600 }])
  ++ md.trained_cases.map (fun c =>
      { selector := c.selector, ptype := c.selector_type, score := 750 })

/-- `LocatorPredictor.predict`: rank the pool by score (stable descending)
and return the top 10.  The `html_content` argument is parsed into a soup
the function never reads, so it cannot influence the result. -/
def predictorPredict (lid : String) (html : String) (hints : List String)
    (md : ModelData) : List Prediction :=
  let _soup := html
  (sortDescBy Prediction.score (predictAll lid hints md)).take 10

/-- `LocatorPredictor.train`: append one trained case (current timestamp)
and persist the whole model; returns `True`.  `html_content` is unused. -/
def predictorTrain (md : ModelData) (lid : String) (html : String)
    (successful_selector : String) (selector_type : String) (now : ℤ) :
    ModelData × Bool :=
  let _ := html
  ({ trained_cases := md.trained_cases ++
      [{ locator_id := lid, selector := successful_selector,
         selector_type := selector_type, timestamp := now }] }, true)

/-! ## The resolution engine -/

/-- The page adapter port: element construction for each Playwright entry
point (construction never fails — `.first` always yields a handle), a
bounded visibility wait (`wait_for` succeeds or times out), tag/type
introspection for `_verify_element_interaction_type`'s `evaluate`, the
current DOM (raw and parsed through the DOM-parser port) and the clock. -/
structure PageModel (E : Type) where
  locator : String → E
  get_by_text : String → E
  get_by_role : String → E
  get_by_alt_text : String → E
  get_by_label : String → E
  get_by_placeholder : String → E
  get_by_test_id : String → E
  wait_ok : E → ℕ → Bool
  tagName : E → String
  typeAttr : E → String
  content : String
  soup : Soup
  now : ℤ

/-- `_create_element_by_type`: dispatch on the selector type; unsupported
types yield `None`. -/
def createElementByType (p : PageModel E) (selector_type selector : String) :
    Option E :=
  if selector_type == "css" then some (p.locator selector)
  else if selector_type == "text" then some (p.get_by_text selector)
  else if selector_type == "role" then some (p.get_by_role selector)
  else if selector_type == "alt" then some (p.get_by_alt_text selector)
  else if selector_type == "label" then some (p.get_by_label selector)
  else if selector_type == "placeholder" then some (p.get_by_placeholder selector)
  else if selector_type == "testid" then some (p.get_by_test_id selector)
  else if selector_type == "xpath" || strStartsWith selector_type "predicted_xpath" then
    some (p.locator ("xpath=" ++ selector))
  else none

/-- `_guess_element_type_from_id`. -/
def guessElementTypeFromId (lid : String) : List String :=
  let idl := lowerStr lid
  let ts :=
    (if (["input", "text", "field", "area", "arama", "search", "kutu"]).any
        (fun kw => strContains idl kw) then ["input"] else [])
    ++ (if (["button", "buton", "btn", "submit", "gonder", "ara"]).any
        (fun kw => strContains idl kw) then ["button"] else [])
    ++ (if (["link", "baglanti", "url", "href"]).any
        (fun kw => strContains idl kw) then ["link"] else [])
    ++ (if (["select", "dropdown", "option", "secim", "liste"]).any
        (fun kw => strContains idl kw) then ["select"] else [])
    ++ (if (["check", "tick", "onay", "checkbox"]).any
        (fun kw => strContains idl kw) then ["checkbox"] else [])
  if ts.isEmpty then ["element"] else ts

/-- The score adjustment `_filter_elements_by_type` applies to one candidate
(tag-compatibility bonus chain, halving on input mismatch, cap at 0.99). -/
def adjustScoreByType (typeHints : List String) (item : Candidate) : Candidate :=
  match item.element with
  | none => item
  | some el =>
    let tagName := lowerStr el.name
    let sel := item.selector
    let b0 := item.score
    let b1 :=
      if tagName == "input" || tagName == "textarea" then
        (if typeHints.contains "input" && tagName == "input" then b0 + 200 else b0)
      else if tagName == "button" || strContains sel "submit" then
        (if typeHints.contains "button" &&
            (tagName == "button" || (tagName == "input" && strContains sel "submit"))
         then b0 + 200 else b0)
      else if tagName == "a" || strContains sel "link" then
        (if typeHints.contains "link" && tagName == "a" then b0 + 200 else b0)
      else if tagName == "select" then
        (if typeHints.contains "select" && tagName == "select" then b0 + 200 else b0)
      else if tagName == "input" && strContains sel "checkbox" then
        (if typeHints.contains "checkbox" && tagName == "input" &&
            strContains sel "checkbox" then b0 + 200 else b0)
      else b0
    let b2 :=
      if typeHints.contains "input" &&
          !((["input", "textarea", "select"]).contains tagName) then b1 / 2 else b1
    { item with score := min 990 b2 }

/-- `_filter_elements_by_type`. -/
def filterElementsByType (elements : List Candidate) (typeHints : List String) :
    List Candidate :=
  if elements.isEmpty then [] else elements.map (adjustScoreByType typeHints)

/-- `_verify_element_interaction_type`: sequential checks against the
expected types; `"element"` accepts anything; no match yields `False`. -/
def verifyElementInteractionType (p : PageModel E) (e : E)
    (expectedTypes : List String) : Bool :=
  let tag := lowerStr (p.tagName e)
  let ity := lowerStr (p.typeAttr e)
  if expectedTypes.contains "input" &&
      (["input", "textarea", "select"]).contains tag then true
  else if expectedTypes.contains "button" &&
      (tag == "button" || (tag == "input" && (["button", "submit"]).contains ity))
    then true
  else if expectedTypes.contains "link" && tag == "a" then true
  else if expectedTypes.contains "select" && tag == "select" then true
  else if expectedTypes.contains "checkbox" && tag == "input" && ity == "checkbox"
    then true
  else expectedTypes.contains "element"

/-- `_save_successful_strategy`: build the strategy with the current time,
store it (`_add_strategy_to_database`), then train the model
(`_train_model_with_strategy`: skipped without a predictor; a
`predicted_<t>` label is stripped back to `<t>`; the new case log is
persisted). -/
def saveSuccessfulStrategy (p : PageModel E) (st : EngineState) (lid : String)
    (selector : String) (selector_type : String) : EngineState :=
  let st1 := addStrategyToDatabase st lid
    { type := selector_type, selector := selector, last_used := p.now }
  match st1.predictor with
  | none => st1
  | some md =>
    let actual_type :=
      if strStartsWith selector_type "predicted_" then strDrop selector_type 10
      else selector_type
    let md' := (predictorTrain md lid p.content selector actual_type p.now).1
    { st1 with predictor := some md', model_file := some md' }

/-- The loop of `_try_database_strategies` over the stored strategies:
unsupported types are skipped, a timeout is skipped, the first visible
element wins and its strategy is promoted. -/
def tryDbLoop (p : PageModel E) (st : EngineState) (lid : String)
    (timeout : ℕ) : List Strategy → Option (E × EngineState)
  | [] => none
  | s :: rest =>
    match createElementByType p s.type s.selector with
    | none => tryDbLoop p st lid timeout rest
    | some e =>
      if p.wait_ok e timeout then
        some (e, promoteSuccessfulStrategy st lid s)
      else tryDbLoop p st lid timeout rest

/-- `_try_database_strategies`. -/
def tryDatabaseStrategies (p : PageModel E) (st : EngineState) (lid : String)
    (timeout : ℕ) : Option (E × EngineState) :=
  match lookupDb st.locator_db lid with
  | none => none
  | some strategies => tryDbLoop p st lid timeout strategies

/-- A stored strategy fails its TRY_STORE attempt: its type is not
realizable, or its element never becomes visible within the wait. -/
def stratFails (p : PageModel E) (timeout : ℕ) (s : Strategy) : Prop :=
  createElementByType p s.type s.selector = none ∨
  ∃ e, createElementByType p s.type s.selector = some e ∧ p.wait_ok e timeout = false

/-- A stored strategy succeeds its TRY_STORE attempt. -/
def stratSucceeds (p : PageModel E) (timeout : ℕ) (s : Strategy) : Prop :=
  ∃ e, createElementByType p s.type s.selector = some e ∧ p.wait_ok e timeout = true

/-- `_try_original_selector`: realize the caller's selector as css, wait,
and on success record it as a new `'css'` strategy. -/
def tryOriginalSelector (p : PageModel E) (st : EngineState) (lid : String)
    (original_selector : Option String) (timeout : ℕ) :
    Option (E × EngineState) :=
  match original_selector with
  | none => none
  | some sel =>
    let e := p.locator sel
    if p.wait_ok e timeout then some (e, saveSuccessfulStrategy p st lid sel "css")
    else none

/-- The attempt loop of `_try_possible_elements` over the top candidates:
2000 ms wait, then tag/role verification; any failure skips to the next
candidate; success records the strategy. -/
def tryCandidateLoop (p : PageModel E) (st : EngineState) (lid : String)
    (typeHints : List String) : List Candidate → Option (E × EngineState)
  | [] => none
  | item :: rest =>
    match createElementByType p item.ctype item.selector with
    | none => tryCandidateLoop p st lid typeHints rest
    | some e =>
      if p.wait_ok e 2000 then
        if verifyElementInteractionType p e typeHints then
          some (e, saveSuccessfulStrategy p st lid item.selector item.ctype)
        else tryCandidateLoop p st lid typeHints rest
      else tryCandidateLoop p st lid typeHints rest

/-- `_try_possible_elements`: guess the element type from the locator id,
rescore, sort (stable, descending) and attempt the top 5.  (Its `timeout`
parameter is unused: the candidate wait is the literal 2000.) -/
def tryPossibleElements (p : PageModel E) (st : EngineState) (lid : String)
    (possible : List Candidate) : Option (E × EngineState) :=
  if possible.isEmpty then none
  else
    let typeHints := guessElementTypeFromId lid
    let filtered := filterElementsByType possible typeHints
    let sortedEls := sortDescBy Candidate.score filtered
    tryCandidateLoop p st lid typeHints (sortedEls.take 5)

/-- `_try_basic_healing_strategies`: run the three generators over the
parsed page and attempt the merged candidates. -/
def tryBasicHealingStrategies (p : PageModel E) (st : EngineState) (lid : String)
    (hints : List String) : Option (E × EngineState) :=
  let soup := p.soup
  let possible := findTextBasedElements soup hints
    ++ findAttributeBasedElements soup hints ++ findFormElements soup hints
  tryPossibleElements p st lid possible

/-- The loop of `_try_prediction_strategy` over the ranked predictions: the
winner is recorded with type `predicted_<type>`. -/
def tryPredLoop (p : PageModel E) (st : EngineState) (lid : String) :
    List Prediction → Option (E × EngineState)
  | [] => none
  | pred :: rest =>
    match createElementByType p pred.ptype pred.selector with
    | none => tryPredLoop p st lid rest
    | some e =>
      if p.wait_ok e 2000 then
        some (e, saveSuccessfulStrategy p st lid pred.selector
          ("predicted_" ++ pred.ptype))
      else tryPredLoop p st lid rest

/-- `_try_prediction_strategy`: nothing without a loaded predictor;
otherwise attempt `predict`'s ranked candidates in order. -/
def tryPredictionStrategy (p : PageModel E) (st : EngineState) (lid : String)
    (hints : List String) : Option (E × EngineState) :=
  match st.predictor with
  | none => none
  | some md => tryPredLoop p st lid (predictorPredict lid p.content hints md)

/-- The terminal error of `get_element`: the raised exception carries the
locator id (`Exception(f"Element bulunamadı: {locator_id}")`). -/
structure ElementNotFoundErr where
  locator_id : String
deriving DecidableEq, Repr

/-- The hint tokens `get_element` derives:
`locator_id.lower().split('_')`. -/
def deriveHints (lid : String) : List String := splitUnderscore (lowerStr lid)

/-- `get_element`: the four-stage cascade.  Stage failures carry no state
change; the first success returns its element and the mutated state; if all
four stages fail the typed not-found error is raised. -/
def getElement (p : PageModel E) (st : EngineState) (lid : String)
    (timeout : ℕ) (original_selector : Option String) :
    Except ElementNotFoundErr (E × EngineState) :=
  match tryDatabaseStrategies p st lid timeout with
  | some r => .ok r
  | none =>
    match tryOriginalSelector p st lid original_selector timeout with
    | some r => .ok r
    | none =>
      let hints := deriveHints lid
      match tryBasicHealingStrategies p st lid hints with
      | some r => .ok r
      | none =>
        match tryPredictionStrategy p st lid hints with
        | some r => .ok r
        | none => .error { locator_id := lid }

/-! ## Offline maintenance (`clean_db.py`) -/

/-- The per-locator filter of `remove_stale_strategies`: keep a strategy iff
`last_used > now - 60*60*24*days`; `None` when nothing remains (the locator
is dropped). -/
def staleActiveStrats (days : ℤ) (now : ℤ) (strategies : List Strategy) :
    Option (List Strategy) :=
  let cutoff_time := now - 60 * 60 * 24 * days
  let active := strategies.filter (fun s => cutoff_time < s.last_used)
  if active.isEmpty then none else some active

/-- `remove_stale_strategies`. -/
def removeStaleStrategies (db : LocatorDb) (days : ℤ) (now : ℤ) : LocatorDb :=
  db.filterMap (fun e => (staleActiveStrats days now e.2).map (fun v => (e.1, v)))

/-- The per-type dedup of `optimize_db`: walking the sorted list, the first
strategy of each type enters the `best_strategies` dict, whose values keep
insertion order. -/
def dedupByType (seen : List String) : List Strategy → List Strategy
  | [] => []
  | s :: rest =>
    if seen.contains s.type then dedupByType seen rest
    else s :: dedupByType (s.type :: seen) rest

/-- The per-locator transform of `optimize_db`: empty lists drop the
locator; otherwise sort by `last_used` (stable, descending) and keep the
first strategy of each type. -/
def optimizeStrats (strategies : List Strategy) : Option (List Strategy) :=
  if strategies.isEmpty then none
  else some (dedupByType [] (sortDescBy Strategy.last_used strategies))

/-- `optimize_db`. -/
def optimizeDb (db : LocatorDb) : LocatorDb :=
  db.filterMap (fun e => (optimizeStrats e.2).map (fun v => (e.1, v)))

/-! ## Concrete fixtures (test doubles for the witnesses below) -/

/-- A store holding one locator `"x"` with a css strategy and a text
strategy (keys distinct). -/
def stStore : EngineState :=
  { locator_db := [("x", [⟨"css", "#a", 1⟩, ⟨"text", "b", 2⟩])],
    db_file := [("x", [⟨"css", "#a", 1⟩, ⟨"text", "b", 2⟩])],
    predictor := none, model_file := none }

/-- A page double on which every wait times out and whose DOM is empty. -/
def pageFail : PageModel Unit :=
  { locator := fun _ => (), get_by_text := fun _ => (), get_by_role := fun _ => (),
    get_by_alt_text := fun _ => (), get_by_label := fun _ => (),
    get_by_placeholder := fun _ => (), get_by_test_id := fun _ => (),
    wait_ok := fun _ _ => false, tagName := fun _ => "input", typeAttr := fun _ => "",
    content := "", soup := { tags := [], strings := [] }, now := 100 }

/-- A page double whose element handles are the selector strings themselves
and on which exactly `#ok` becomes visible. -/
def pageOk : PageModel String :=
  { locator := fun sel => sel, get_by_text := fun sel => sel,
    get_by_role := fun sel => sel, get_by_alt_text := fun sel => sel,
    get_by_label := fun sel => sel, get_by_placeholder := fun sel => sel,
    get_by_test_id := fun sel => sel, wait_ok := fun e _ => e == "#ok",
    tagName := fun _ => "input", typeAttr := fun _ => "",
    content := "", soup := { tags := [], strings := [] }, now := 100 }

/-- A store for the promotion scenario: broken strategy at index 0, working
strategy at index 1. -/
def stPromo : EngineState :=
  { locator_db := [("w", [⟨"css", "#bad", 1⟩, ⟨"css", "#ok", 2⟩])],
    db_file := [("w", [⟨"css", "#bad", 1⟩, ⟨"css", "#ok", 2⟩])],
    predictor := none, model_file := none }

/-- Ten trained cases with distinct selectors `s0 .. s9`. -/
def cases10 : List TrainedCase :=
  (List.range 10).map (fun i =>
    { locator_id := "x", selector := "s" ++ toString i, selector_type := "css",
      timestamp := 0 })

/-- A model trained once, with `(locator_id="x", selector=".y", type="css")`
(Scenario D of the spec). -/
def mdOne : ModelData :=
  { trained_cases := [{ locator_id := "x", selector := ".y",
                        selector_type := "css", timestamp := 7 }] }

/-- A document consisting of one button. -/
def soupButton : Soup :=
  { tags := [{ name := "button", attrs := [], text := "Git" }], strings := [] }

/-- A store with two same-type strategies and one of another type. -/
def dbOpt : LocatorDb :=
  [("a", [⟨"css", "#1", 5⟩, ⟨"css", "#2", 9⟩, ⟨"text", "t", 3⟩])]

/-- A store for the staleness scenario: one fresh and one stale strategy. -/
def dbStale : LocatorDb :=
  [("a", [⟨"css", "#new", 86400 * 9⟩, ⟨"text", "t", 86400 * 2⟩]),
   ("b", [⟨"css", "#old", 86400 * 1⟩])]

end SelfHealing

namespace SelfHealing

/-! ## Lemmas about the stable sort -/

theorem insortDescBy_perm (key : α → ℤ) (x : α) (l : List α) :
    (insortDescBy key x l).Perm (x :: l) := by
  induction l with
  | nil => simp [insortDescBy]
  | cons y ys ih =>
    by_cases h : key x < key y
    · simp only [insortDescBy, if_pos h]
      exact (List.Perm.cons y ih).trans (List.Perm.swap x y ys)
    · simp [insortDescBy, if_neg h]

theorem sortDescBy_perm (key : α → ℤ) (l : List α) :
    (sortDescBy key l).Perm l := by
  induction l with
  | nil => simp [sortDescBy]
  | cons x xs ih =>
    exact (insortDescBy_perm key x (sortDescBy key xs)).trans (List.Perm.cons x ih)

theorem mem_sortDescBy (key : α → ℤ) (l : List α) (a : α) :
    a ∈ sortDescBy key l ↔ a ∈ l :=
  (sortDescBy_perm key l).mem_iff

theorem insortDescBy_pairwise {key : α → ℤ} {x : α} {l : List α}
    (h : l.Pairwise (fun a b => key b ≤ key a)) :
    (insortDescBy key x l).Pairwise (fun a b => key b ≤ key a) := by
  induction l with
  | nil => simp [insortDescBy]
  | cons y ys ih =>
    rcases List.pairwise_cons.mp h with ⟨hy, hys⟩
    by_cases hc : key x < key y
    · simp only [insortDescBy, if_pos hc]
      refine List.pairwise_cons.mpr ⟨?_, ih hys⟩
      intro z hz
      rcases List.mem_cons.mp ((insortDescBy_perm key x ys).mem_iff.mp hz) with rfl | hz'
      · exact le_of_lt hc
      · exact hy z hz'
    · simp only [insortDescBy, if_neg hc]
      refine List.pairwise_cons.mpr ⟨?_, h⟩
      intro z hz
      rcases List.mem_cons.mp hz with rfl | hz'
      · exact le_of_not_lt hc
      · exact le_trans (hy z hz') (le_of_not_lt hc)

theorem sortDescBy_pairwise (key : α → ℤ) (l : List α) :
    (sortDescBy key l).Pairwise (fun a b => key b ≤ key a) := by
  induction l with
  | nil => simp [sortDescBy]
  | cons x xs ih => exact insortDescBy_pairwise ih

theorem insortDescBy_eq_cons {key : α → ℤ} {x : α} {l : List α}
    (h : ∀ y ∈ l, key y ≤ key x) : insortDescBy key x l = x :: l := by
  cases l with
  | nil => rfl
  | cons y ys =>
    have : ¬ key x < key y := not_lt.mpr (h y (by simp))
    simp [insortDescBy, this]

theorem sortDescBy_eq_self {key : α → ℤ} {l : List α}
    (h : l.Pairwise (fun a b => key b ≤ key a)) : sortDescBy key l = l := by
  induction l with
  | nil => rfl
  | cons x xs ih =>
    rcases List.pairwise_cons.mp h with ⟨hx, hxs⟩
    simp only [sortDescBy, ih hxs]
    exact insortDescBy_eq_cons hx

/-- In a descending-sorted list, an element whose key reaches the threshold
`q` lies within the first `n` entries as soon as at most `n` entries reach
`q`. -/
theorem mem_take_of_count {key : α → ℤ} {q : ℤ} :
    ∀ {l : List α} {n : ℕ}, l.Pairwise (fun a b => key b ≤ key a) →
      ∀ {x}, x ∈ l → q ≤ key x →
      l.countP (fun y => decide (q ≤ key y)) ≤ n → x ∈ l.take n := by
  intro l
  induction l with
  | nil => intro n _ x hx; cases hx
  | cons a t ih =>
    intro n hp x hx hq hc
    rcases List.pairwise_cons.mp hp with ⟨ha, ht⟩
    cases n with
    | zero =>
      exfalso
      have : 0 < (a :: t).countP (fun y => decide (q ≤ key y)) :=
        List.countP_pos_iff.mpr ⟨x, hx, by simpa using hq⟩
      omega
    | succ m =>
      rcases List.mem_cons.mp hx with rfl | hx'
      · simp [List.take_succ_cons]
      · have hqa : q ≤ key a := le_trans hq (ha x hx')
        have hcc : (a :: t).countP (fun y => decide (q ≤ key y))
            = t.countP (fun y => decide (q ≤ key y)) + 1 := by
          simp [List.countP_cons, hqa]
        have hc' : t.countP (fun y => decide (q ≤ key y)) ≤ m := by omega
        simpa [List.take_succ_cons] using Or.inr (ih ht hx' hq hc')

/-! ## Lemmas about the store -/

theorem lookupDb_eq_none_of_not_mem {db : LocatorDb} {lid : String}
    (h : lid ∉ db.map Prod.fst) : lookupDb db lid = none := by
  induction db with
  | nil => rfl
  | cons e rest ih =>
    simp only [List.map_cons, List.mem_cons, not_or] at h
    have hb : (e.1 == lid) = false := by
      simp only [beq_eq_false_iff_ne, ne_eq]
      exact fun hc => h.1 hc.symm
    simp only [lookupDb, List.find?_cons, hb]
    exact ih h.2

theorem lookupDb_append_new {db : LocatorDb} {lid : String}
    (h : lookupDb db lid = none) (v : List Strategy) :
    lookupDb (db ++ [(lid, v)]) lid = some v := by
  induction db with
  | nil => simp [lookupDb]
  | cons e rest ih =>
    by_cases he : e.1 = lid
    · exfalso
      simp [lookupDb, List.find?_cons, he] at h
    · have hb : (e.1 == lid) = false := beq_eq_false_iff_ne.mpr he
      simp only [lookupDb, List.find?_cons, hb] at h
      simp only [lookupDb, List.cons_append, List.find?_cons, hb]
      exact ih h

theorem lookupDb_update_self {db : LocatorDb} {lid : String} {l : List Strategy}
    (h : lookupDb db lid = some l) (v : List Strategy) :
    lookupDb (updateDbEntry db lid v) lid = some v := by
  induction db with
  | nil => simp [lookupDb] at h
  | cons e rest ih =>
    by_cases he : e.1 = lid
    · simp [lookupDb, updateDbEntry, List.find?_cons, he]
    · have hb : (e.1 == lid) = false := beq_eq_false_iff_ne.mpr he
      simp only [lookupDb, List.find?_cons, hb] at h
      show lookupDb ((if (e.1 == lid) = true then (e.1, v) else e)
        :: updateDbEntry rest lid v) lid = some v
      rw [hb]
      simp only [Bool.false_eq_true, if_false, lookupDb, List.find?_cons, hb]
      exact ih h

theorem lookupDb_filterMap {f : List Strategy → Option (List Strategy)}
    {db : LocatorDb} (hnd : (db.map Prod.fst).Nodup) (lid : String) :
    lookupDb (db.filterMap (fun e => (f e.2).map (fun v => (e.1, v)))) lid
      = (lookupDb db lid).bind f := by
  induction db with
  | nil => rfl
  | cons e rest ih =>
    rcases List.pairwise_cons.mp hnd with ⟨hke, hrest⟩
    by_cases he : e.1 = lid
    · cases hf : f e.2 with
      | some v =>
        simp [lookupDb, List.filterMap_cons, hf, List.find?_cons, he]
      | none =>
        have hnone : lookupDb rest lid = none := by
          refine lookupDb_eq_none_of_not_mem ?_
          intro hc
          exact hke lid hc (he ▸ rfl) |>.elim
        simp only [List.filterMap_cons, hf, Option.map_none']
        rw [ih hrest, hnone]
        simp [lookupDb, List.find?_cons, he, hf]
    · have hb : (e.1 == lid) = false := beq_eq_false_iff_ne.mpr he
      cases hf : f e.2 with
      | some v =>
        simp only [List.filterMap_cons, hf, Option.map_some']
        simp only [lookupDb, List.find?_cons, hb]
        exact ih hrest
      | none =>
        simp only [List.filterMap_cons, hf, Option.map_none']
        rw [ih hrest]
        simp only [lookupDb, List.find?_cons, hb]

/-! ## Lemmas about `touchFirst` / `addToStrategies` -/

theorem touchFirst_keys (s : Strategy) (l : List Strategy) :
    stratKeys (touchFirst s l).1 = stratKeys l := by
  induction l with
  | nil => rfl
  | cons x xs ih =>
    by_cases h : (x.type == s.type && x.selector == s.selector) = true
    · simp [touchFirst, h, stratKeys]
    · rw [touchFirst, if_neg h]
      simp only [stratKeys, List.map_cons] at ih ⊢
      rw [ih]

theorem touchFirst_not_found {s : Strategy} {l : List Strategy}
    (h : (touchFirst s l).2 = false) : (s.type, s.selector) ∉ stratKeys l := by
  induction l with
  | nil => simp [stratKeys]
  | cons x xs ih =>
    by_cases hx : (x.type == s.type && x.selector == s.selector) = true
    · rw [touchFirst, if_pos hx] at h
      simp at h
    · rw [touchFirst, if_neg hx] at h
      simp only [stratKeys, List.map_cons, List.mem_cons]
      rintro (hk | hk)
      · apply hx
        have h1 : x.type = s.type := congrArg Prod.fst hk.symm
        have h2 : x.selector = s.selector := congrArg Prod.snd hk.symm
        simp [h1, h2]
      · exact ih h hk

/-- The first-match characterisation of `touchFirst`. -/
theorem touchFirst_found {s : Strategy} {l : List Strategy} {j : ℕ}
    (h : l.findIdx? (fun x => x.type == s.type && x.selector == s.selector)
      = some j) :
    ∃ x, l.get? j = some x ∧
      touchFirst s l = (l.set j { x with last_used := s.last_used }, true) := by
  induction l generalizing j with
  | nil => simp [List.findIdx?] at h
  | cons a t ih =>
    by_cases ha : (a.type == s.type && a.selector == s.selector) = true
    · rw [List.findIdx?_cons, if_pos ha] at h
      rcases Option.some_inj.mp h with rfl
      exact ⟨a, rfl, by rw [touchFirst, if_pos ha]; rfl⟩
    · rw [List.findIdx?_cons, if_neg ha, List.findIdx?_succ] at h
      rcases Option.map_eq_some'.mp h with ⟨j', hj', rfl⟩
      rcases ih hj' with ⟨x, hget, htouch⟩
      refine ⟨x, by simpa using hget, ?_⟩
      rw [touchFirst, if_neg ha, htouch]
      simp [List.set]

/-! ## Lemmas about `dedupByType` -/

theorem mem_dedupByType_not_seen {seen : List String} {l : List Strategy}
    {s : Strategy} (h : s ∈ dedupByType seen l) : s.type ∉ seen := by
  induction l generalizing seen with
  | nil => simp [dedupByType] at h
  | cons a t ih =>
    by_cases ha : a.type ∈ seen
    · exact ih (by simpa [dedupByType, ha] using h)
    · simp only [dedupByType, List.elem_iff, ha, if_neg, not_false_eq_true] at h
      rcases List.mem_cons.mp h with rfl | h'
      · exact ha
      · have := ih h'
        simp only [List.mem_cons, not_or] at this
        exact this.2

theorem mem_dedupByType_sub {seen : List String} {l : List Strategy}
    {s : Strategy} (h : s ∈ dedupByType seen l) : s ∈ l := by
  induction l generalizing seen with
  | nil => simp [dedupByType] at h
  | cons a t ih =>
    by_cases ha : a.type ∈ seen
    · exact List.mem_cons_of_mem _ (ih (by simpa [dedupByType, ha] using h))
    · simp only [dedupByType, List.elem_iff, ha, if_neg, not_false_eq_true] at h
      rcases List.mem_cons.mp h with rfl | h'
      · exact List.mem_cons_self _ _
      · exact List.mem_cons_of_mem _ (ih h')

theorem dedupByType_types_nodup (seen : List String) (l : List Strategy) :
    ((dedupByType seen l).map Strategy.type).Nodup := by
  induction l generalizing seen with
  | nil => simp [dedupByType]
  | cons a t ih =>
    by_cases ha : a.type ∈ seen
    · simpa [dedupByType, ha] using ih seen
    · simp only [dedupByType, List.elem_iff, ha, if_neg, not_false_eq_true,
        List.map_cons, List.nodup_cons]
      refine ⟨?_, ih (a.type :: seen)⟩
      intro hc
      rcases List.mem_map.mp hc with ⟨s, hs, hty⟩
      have := mem_dedupByType_not_seen hs
      simp [hty] at this

theorem dedupByType_sublist (seen : List String) (l : List Strategy) :
    (dedupByType seen l).Sublist l := by
  induction l generalizing seen with
  | nil => simp [dedupByType]
  | cons a t ih =>
    by_cases ha : a.type ∈ seen
    · simp only [dedupByType, List.elem_iff, ha, if_pos]
      exact (ih seen).cons a
    · simp only [dedupByType, List.elem_iff, ha, if_neg, not_false_eq_true]
      exact (ih (a.type :: seen)).cons₂ a

/-- In a list sorted descending by `last_used`, each strategy `dedupByType`
keeps has the maximal `last_used` among entries of its type. -/
theorem dedupByType_max {l : List Strategy} {seen : List String} {s' : Strategy}
    (hp : l.Pairwise (fun a b => b.last_used ≤ a.last_used))
    (h : s' ∈ dedupByType seen l) :
    ∀ s ∈ l, s.type = s'.type → s.last_used ≤ s'.last_used := by
  induction l generalizing seen with
  | nil => simp [dedupByType] at h
  | cons a t ih =>
    rcases List.pairwise_cons.mp hp with ⟨ha, ht⟩
    by_cases hseen : a.type ∈ seen
    · have h' : s' ∈ dedupByType seen t := by simpa [dedupByType, hseen] using h
      intro s hs hty
      rcases List.mem_cons.mp hs with rfl | hs'
      · exact absurd (hty ▸ hseen) (mem_dedupByType_not_seen h')
      · exact ih ht h' s hs' hty
    · simp only [dedupByType, List.elem_iff, hseen, if_neg, not_false_eq_true] at h
      rcases List.mem_cons.mp h with rfl | h'
      · intro s hs _
        rcases List.mem_cons.mp hs with rfl | hs'
        · exact le_refl _
        · exact ha s hs'
      · intro s hs hty
        rcases List.mem_cons.mp hs with rfl | hs'
        · exfalso
          have := mem_dedupByType_not_seen h'
          rw [← hty] at this
          exact this (List.mem_cons_self _ _)
        · exact ih ht h' s hs' hty

theorem dedupByType_eq_self {l : List Strategy} {seen : List String}
    (hnd : (l.map Strategy.type).Nodup) (hdisj : ∀ s ∈ l, s.type ∉ seen) :
    dedupByType seen l = l := by
  induction l generalizing seen with
  | nil => rfl
  | cons a t ih =>
    have ha : a.type ∉ seen := hdisj a (List.mem_cons_self _ _)
    simp only [dedupByType, List.elem_iff, ha, if_neg, not_false_eq_true,
      List.cons.injEq, true_and]
    rw [List.map_cons, List.nodup_cons] at hnd
    refine ih hnd.2 ?_
    intro s hs
    simp only [List.mem_cons, not_or]
    constructor
    · intro hc
      exact hnd.1 (List.mem_map.mpr ⟨s, hs, hc⟩)
    · exact hdisj s (List.mem_cons_of_mem _ hs)

theorem dedupByType_ne_nil {l : List Strategy} (h : ¬ l.isEmpty) :
    dedupByType [] l ≠ [] := by
  cases l with
  | nil => simp at h
  | cons a t => simp [dedupByType]

/-! ## Further helper lemmas -/

theorem touchFirst_snd_false {s : Strategy} {l : List Strategy}
    (h : ∀ x ∈ l, ¬ (x.type == s.type && x.selector == s.selector) = true) :
    (touchFirst s l).2 = false := by
  induction l with
  | nil => rfl
  | cons a t ih =>
    have ha := h a (List.mem_cons_self _ _)
    rw [touchFirst, if_neg ha]
    exact ih (fun x hx => h x (List.mem_cons_of_mem _ hx))

theorem erase_eq_eraseIdx_of_keys_nodup {l : List Strategy} {k : ℕ} {s : Strategy}
    (hnd : (stratKeys l).Nodup) (hk : l.get? k = some s) :
    l.erase s = l.eraseIdx k := by
  induction l generalizing k with
  | nil => simp at hk
  | cons a t ih =>
    rw [stratKeys, List.map_cons, List.nodup_cons] at hnd
    cases k with
    | zero =>
      obtain rfl := Option.some_inj.mp hk
      simp [List.eraseIdx]
    | succ k' =>
      have hk' : t.get? k' = some s := by simpa using hk
      have hne : ¬ (a == s) = true := by
        intro hc
        have hca : a = s := by simpa using hc
        subst hca
        exact hnd.1 (List.mem_map.mpr ⟨_, List.get?_mem hk', rfl⟩)
      rw [List.erase_cons_tail hne]
      show a :: t.erase s = (a :: t).eraseIdx (k' + 1)
      rw [List.eraseIdx_cons_succ, ih hnd.2 hk']

theorem tryDbLoop_wins {E} (p : PageModel E) (st : EngineState) (lid : String)
    (timeout : ℕ) :
    ∀ (l : List Strategy) (k : ℕ) (s : Strategy),
      l.get? k = some s →
      (∀ j s', j < k → l.get? j = some s' → stratFails p timeout s') →
      stratSucceeds p timeout s →
      ∃ e, createElementByType p s.type s.selector = some e ∧
        p.wait_ok e timeout = true ∧
        tryDbLoop p st lid timeout l = some (e, promoteSuccessfulStrategy st lid s) := by
  intro l
  induction l with
  | nil => intro k s hk _ _; simp at hk
  | cons a t ih =>
    intro k s hk hfail hsucc
    cases k with
    | zero =>
      obtain rfl := Option.some_inj.mp hk
      obtain ⟨e, hce, hwe⟩ := hsucc
      exact ⟨e, hce, hwe, by simp [tryDbLoop, hce, hwe]⟩
    | succ k' =>
      have hfa : stratFails p timeout a := hfail 0 a (Nat.succ_pos _) rfl
      have hk' : t.get? k' = some s := by simpa using hk
      have hfail' : ∀ j s', j < k' → t.get? j = some s' → stratFails p timeout s' :=
        fun j s' hj hg => hfail (j + 1) s' (Nat.succ_lt_succ hj) (by simpa using hg)
      obtain ⟨e, hce, hwe, hloop⟩ := ih k' s hk' hfail' hsucc
      refine ⟨e, hce, hwe, ?_⟩
      rcases hfa with hnone | ⟨e', hce', hwe'⟩
      · simp [tryDbLoop, hnone, hloop]
      · simp [tryDbLoop, hce', hwe', hloop]

theorem prune_kept_iff {db : LocatorDb} (hnd : (db.map Prod.fst).Nodup)
    (d now : ℤ) {lid : String} {strats : List Strategy}
    (h : lookupDb db lid = some strats) (s : Strategy) :
    (∃ kept, lookupDb (removeStaleStrategies db d now) lid = some kept ∧ s ∈ kept)
      ↔ (s ∈ strats ∧ now - 60 * 60 * 24 * d < s.last_used) := by
  have hlk : lookupDb (removeStaleStrategies db d now) lid
      = staleActiveStrats d now strats := by
    show lookupDb (db.filterMap
      (fun e => ((staleActiveStrats d now) e.2).map (fun v => (e.1, v)))) lid = _
    rw [lookupDb_filterMap hnd lid, h]
    rfl
  rw [hlk]
  unfold staleActiveStrats
  by_cases hemp : (strats.filter
      (fun x => decide (now - 60 * 60 * 24 * d < x.last_used))).isEmpty
  · simp only [hemp, if_pos]
    constructor
    · rintro ⟨kept, hk, _⟩; cases hk
    · rintro ⟨hmem, hlt⟩
      exfalso
      have hmem2 : s ∈ strats.filter
          (fun x => decide (now - 60 * 60 * 24 * d < x.last_used)) :=
        List.mem_filter.mpr ⟨hmem, by simpa using hlt⟩
      rw [List.isEmpty_iff] at hemp
      rw [hemp] at hmem2
      exact absurd hmem2 (List.not_mem_nil s)
  · simp only [hemp, Bool.false_eq_true, if_false]
    constructor
    · rintro ⟨kept, hk, hsk⟩
      obtain rfl := Option.some_inj.mp hk
      have := List.mem_filter.mp hsk
      exact ⟨this.1, by simpa using this.2⟩
    · rintro ⟨hmem, hlt⟩
      exact ⟨_, rfl, List.mem_filter.mpr ⟨hmem, by simpa using hlt⟩⟩

theorem prune_dropped_iff {db : LocatorDb} (hnd : (db.map Prod.fst).Nodup)
    (d now : ℤ) {lid : String} {strats : List Strategy}
    (h : lookupDb db lid = some strats) :
    lookupDb (removeStaleStrategies db d now) lid = none ↔
      ∀ s ∈ strats, s.last_used ≤ now - 60 * 60 * 24 * d := by
  have hlk : lookupDb (removeStaleStrategies db d now) lid
      = staleActiveStrats d now strats := by
    show lookupDb (db.filterMap
      (fun e => ((staleActiveStrats d now) e.2).map (fun v => (e.1, v)))) lid = _
    rw [lookupDb_filterMap hnd lid, h]
    rfl
  rw [hlk]
  unfold staleActiveStrats
  by_cases hemp : (strats.filter
      (fun x => decide (now - 60 * 60 * 24 * d < x.last_used))).isEmpty
  · simp only [hemp, if_pos, true_iff]
    rw [List.isEmpty_iff, List.filter_eq_nil_iff] at hemp
    intro s hs
    have := hemp s hs
    simpa [not_lt] using this
  · simp only [hemp, Bool.false_eq_true, if_false, reduceCtorEq, false_iff]
    intro hall
    apply hemp
    rw [List.isEmpty_iff, List.filter_eq_nil_iff]
    intro s hs
    simpa [not_lt] using hall s hs

theorem flatMap_guard_eq {β : Type} (g : String → List β) (hints : List String) :
    hints.flatMap (fun h => if 3 < h.length then g h else [])
      = (hints.filter (fun h => decide (3 < h.length))).flatMap
          (fun h => if 3 < h.length then g h else []) := by
  induction hints with
  | nil => rfl
  | cons a t ih =>
    by_cases ha : 3 < a.length
    · simp [List.flatMap_cons, List.filter_cons, ha, ih]
    · simp [List.flatMap_cons, List.filter_cons, ha, ih]

theorem filterMap_guard_eq {β : Type} (f : String → Option β) (hints : List String) :
    hints.filterMap (fun h => if 3 < h.length then f h else none)
      = (hints.filter (fun h => decide (3 < h.length))).filterMap
          (fun h => if 3 < h.length then f h else none) := by
  induction hints with
  | nil => rfl
  | cons a t ih =>
    by_cases ha : 3 < a.length
    · simp [List.filterMap_cons, List.filter_cons, ha, ih]
    · simp [List.filterMap_cons, List.filter_cons, ha, ih]

/-! ## The claims -/

/-- C9.  Loading the strategy store is total over the three file states —
no outcome propagates an exception — and both the missing-file and the
corrupt-file state yield the empty mapping, while a valid file yields its
parsed contents. -/
theorem load_store_never_throws :
    (∀ f : DbFileState, ∃ m : LocatorDb, loadLocatorDb f = m) ∧
    loadLocatorDb .absent = [] ∧ loadLocatorDb .corrupt = [] ∧
    (∀ db : LocatorDb, loadLocatorDb (.valid db) = db) :=
  ⟨fun f => ⟨loadLocatorDb f, rfl⟩, rfl, rfl, fun _ => rfl⟩

/-- C1 (counterexample).  Recording a success for an already-present
(type, selector) pair updates its `last_used` **in place**: in the store
`{"x": [css "#a", text "b"]}`, recording `text "b"` again leaves it at
index 1 — index 0 still holds the css strategy — contradicting the claim
that the touched strategy is moved to index 0. -/
theorem recordSuccess_counterexample :
    (addStrategyToDatabase stStore "x" ⟨"text", "b", 5⟩).locator_db
        = [("x", [⟨"css", "#a", 1⟩, ⟨"text", "b", 5⟩])] ∧
    ([(⟨"css", "#a", 1⟩ : Strategy), ⟨"text", "b", 5⟩].get? 0
        ≠ some (⟨"text", "b", 5⟩ : Strategy)) := by decide

/-- C1 (amended).  `recordSuccess`: the store file always equals the
in-memory store afterwards (immediate persistence); an unknown locator gets
the fresh record `[s]`; with the (type, selector) pair absent the new
strategy is inserted at index 0; with the pair present at first index `j`,
that entry's `last_used` is updated in place — position `j`, not index 0. -/
theorem recordSuccess_spec (st : EngineState) (lid : String) (s : Strategy) :
    (addStrategyToDatabase st lid s).db_file
        = (addStrategyToDatabase st lid s).locator_db ∧
    (lookupDb st.locator_db lid = none →
      lookupDb (addStrategyToDatabase st lid s).locator_db lid = some [s]) ∧
    (∀ l, lookupDb st.locator_db lid = some l →
      (l.findIdx? (fun x => x.type == s.type && x.selector == s.selector) = none →
        lookupDb (addStrategyToDatabase st lid s).locator_db lid = some (s :: l)) ∧
      (∀ j, l.findIdx? (fun x => x.type == s.type && x.selector == s.selector)
          = some j →
        ∃ x, l.get? j = some x ∧
          lookupDb (addStrategyToDatabase st lid s).locator_db lid
            = some (l.set j { x with last_used := s.last_used }))) := by
  refine ⟨?_, ?_, ?_⟩
  · cases h : lookupDb st.locator_db lid <;> simp [addStrategyToDatabase, h]
  · intro h
    simp only [addStrategyToDatabase, h]
    exact lookupDb_append_new h [s]
  · intro l h
    have hbase : lookupDb (addStrategyToDatabase st lid s).locator_db lid
        = some (addToStrategies l s) := by
      simp only [addStrategyToDatabase, h]
      exact lookupDb_update_self h _
    constructor
    · intro hnone
      rw [hbase]
      have hsnd : (touchFirst s l).2 = false := by
        refine touchFirst_snd_false ?_
        rw [List.findIdx?_eq_none_iff] at hnone
        intro x hx
        simpa using hnone x hx
      simp [addToStrategies, hsnd]
    · intro j hj
      obtain ⟨x, hget, htouch⟩ := touchFirst_found hj
      refine ⟨x, hget, ?_⟩
      rw [hbase]
      simp [addToStrategies, htouch]

/-- C1 witness: at the concrete store, the touched entry keeps its position
and only `last_used` changes. -/
theorem recordSuccess_spec_witness :
    lookupDb (addStrategyToDatabase stStore "x" ⟨"text", "b", 5⟩).locator_db "x"
      = some [⟨"css", "#a", 1⟩, ⟨"text", "b", 5⟩] := by
  obtain ⟨x, hx, hl⟩ :=
    ((recordSuccess_spec stStore "x" ⟨"text", "b", 5⟩).2.2
      [⟨"css", "#a", 1⟩, ⟨"text", "b", 2⟩] (by decide)).2 1 (by decide)
  obtain rfl := Option.some_inj.mp hx
  exact hl

/-- C5.  Distinctness of the (type, selector) keys within a locator's list
is preserved both by `recordSuccess` (in-place touch keeps the keys; a
fresh insert adds a key that was absent) and by promotion (a permutation);
consequently no sequence of resolutions can create a duplicate pair. -/
theorem uniqueness_preserved (st : EngineState) (lid : String)
    (l : List Strategy) (s s' : Strategy)
    (h : lookupDb st.locator_db lid = some l) (hnd : (stratKeys l).Nodup) :
    (∀ l', lookupDb (addStrategyToDatabase st lid s).locator_db lid = some l' →
      (stratKeys l').Nodup) ∧
    (s' ∈ l → ∀ l',
      lookupDb (promoteSuccessfulStrategy st lid s').locator_db lid = some l' →
      (stratKeys l').Nodup) := by
  constructor
  · intro l' hl'
    have hbase : lookupDb (addStrategyToDatabase st lid s).locator_db lid
        = some (addToStrategies l s) := by
      simp only [addStrategyToDatabase, h]
      exact lookupDb_update_self h _
    rw [hbase] at hl'
    obtain rfl := Option.some_inj.mp hl'
    by_cases hf : (touchFirst s l).2 = true
    · have : stratKeys (addToStrategies l s) = stratKeys l := by
        simp [addToStrategies, hf, touchFirst_keys]
      rw [this]; exact hnd
    · have hf' : (touchFirst s l).2 = false := by
        cases hb : (touchFirst s l).2
        · rfl
        · exact absurd hb hf
      have hnotin := touchFirst_not_found hf'
      have : addToStrategies l s = s :: l := by simp [addToStrategies, hf']
      rw [this]
      exact List.nodup_cons.mpr ⟨hnotin, hnd⟩
  · intro hs' l' hl'
    have hbase : lookupDb (promoteSuccessfulStrategy st lid s').locator_db lid
        = some (promoteStrats l s') := by
      simp only [promoteSuccessfulStrategy, h]
      exact lookupDb_update_self h _
    rw [hbase] at hl'
    obtain rfl := Option.some_inj.mp hl'
    have hperm : (promoteStrats l s').Perm l :=
      (List.perm_cons_erase hs').symm
    have : (stratKeys (promoteStrats l s')).Perm (stratKeys l) := hperm.map _
    exact (this.nodup_iff).mpr hnd

/-- C5 witness at the concrete store: both operations keep the keys
distinct. -/
theorem uniqueness_preserved_witness :
    (stratKeys [(⟨"css", "#c", 100⟩ : Strategy), ⟨"css", "#a", 1⟩,
      ⟨"text", "b", 2⟩]).Nodup ∧
    (stratKeys [(⟨"text", "b", 2⟩ : Strategy), ⟨"css", "#a", 1⟩]).Nodup := by
  have h := uniqueness_preserved stStore "x"
    [⟨"css", "#a", 1⟩, ⟨"text", "b", 2⟩] ⟨"css", "#c", 100⟩ ⟨"text", "b", 2⟩
    (by decide) (by decide)
  constructor
  · exact h.1 _ (by decide)
  · exact h.2 (by decide) _ (by decide)

/-- C7 (counterexample).  `prune` removes at the boundary: with
`now = 86400` and `days = 1` the cutoff is `0`, and a strategy with
`last_used = 0` — exactly the cutoff, hence *not* older than it — is
removed (its locator is dropped), contradicting the claimed strict-age
characterisation. -/
theorem prune_boundary_counterexample :
    removeStaleStrategies [("x", [⟨"css", "#a", 0⟩])] 1 86400 = [] ∧
    ¬ ((0 : ℤ) < 86400 - 60 * 60 * 24 * 1) := by decide

/-- C7 (amended).  `prune(days=d)` keeps a strategy iff
`last_used > now - d*86400` (so it removes at age ≥ d, boundary included);
a locator is dropped iff none of its strategies survives; and for
`d1 ≤ d2` every strategy surviving `prune(d1)` survives `prune(d2)` — the
set removed by the smaller window is a superset of the set removed by the
larger. -/
theorem prune_spec (db : LocatorDb) (hnd : (db.map Prod.fst).Nodup)
    (d1 d2 now : ℤ) (hd : d1 ≤ d2) (lid : String) (strats : List Strategy)
    (h : lookupDb db lid = some strats) :
    (∀ s ∈ strats,
      (∃ kept, lookupDb (removeStaleStrategies db d1 now) lid = some kept ∧
          s ∈ kept) ↔ now - 60 * 60 * 24 * d1 < s.last_used) ∧
    (lookupDb (removeStaleStrategies db d1 now) lid = none ↔
      ∀ s ∈ strats, s.last_used ≤ now - 60 * 60 * 24 * d1) ∧
    (∀ s ∈ strats,
      (∃ kept, lookupDb (removeStaleStrategies db d1 now) lid = some kept ∧
          s ∈ kept) →
      (∃ kept, lookupDb (removeStaleStrategies db d2 now) lid = some kept ∧
          s ∈ kept)) := by
  refine ⟨?_, prune_dropped_iff hnd d1 now h, ?_⟩
  · intro s hs
    rw [prune_kept_iff hnd d1 now h s]
    exact and_iff_right hs
  · intro s hs hkept
    rw [prune_kept_iff hnd d1 now h s] at hkept
    rw [prune_kept_iff hnd d2 now h s]
    refine ⟨hs, lt_of_le_of_lt ?_ hkept.2⟩
    have : 60 * 60 * 24 * d1 ≤ 60 * 60 * 24 * d2 := by
      have h24 : (0 : ℤ) < 60 * 60 * 24 := by decide
      exact mul_le_mul_of_nonneg_left hd (le_of_lt h24)
    omega

/-- C7 witness at a concrete store: the fresh strategy survives a 7-day
prune, the old locator is dropped, and surviving the tighter prune implies
surviving the looser one. -/
theorem prune_spec_witness :
    (∃ kept, lookupDb (removeStaleStrategies dbStale 7 (86400 * 10)) "a"
        = some kept ∧ (⟨"css", "#new", 86400 * 9⟩ : Strategy) ∈ kept) ∧
    lookupDb (removeStaleStrategies dbStale 7 (86400 * 10)) "b" = none := by
  have ha := prune_spec dbStale (by decide) 7 8 (86400 * 10) (by decide) "a"
    [⟨"css", "#new", 86400 * 9⟩, ⟨"text", "t", 86400 * 2⟩] (by decide)
  have hb := prune_spec dbStale (by decide) 7 8 (86400 * 10) (by decide) "b"
    [⟨"css", "#old", 86400 * 1⟩] (by decide)
  constructor
  · exact (ha.1 _ (by decide)).mpr (by decide)
  · exact hb.2.1.mpr (by decide)

/-- C10.  A selector type outside
`{css, text, role, alt, label, placeholder, testid, xpath}` that is not
prefixed `predicted_xpath` is never realized (`_create_element_by_type`
returns `None` for it), so TRY_STORE skips any stored strategy of such a
type — in particular every `predicted_*` strategy other than
`predicted_xpath*`, such as the `predicted_css` strategies persisted after
a successful css prediction. -/
theorem predicted_type_unrealizable {E} (p : PageModel E) (t : String)
    (st : EngineState) (lid : String) (timeout : ℕ) (s : Strategy)
    (rest : List Strategy)
    (h1 : t ∉ ["css", "text", "role", "alt", "label", "placeholder",
      "testid", "xpath"])
    (h2 : strStartsWith t "predicted_xpath" = false) (hs : s.type = t) :
    (∀ sel, createElementByType p t sel = none) ∧
    tryDbLoop p st lid timeout (s :: rest) = tryDbLoop p st lid timeout rest := by
  simp only [List.mem_cons, not_or] at h1
  obtain ⟨n1, n2, n3, n4, n5, n6, n7, n8, -⟩ := h1
  have hcreate : ∀ sel, createElementByType p t sel = none := by
    intro sel
    simp [createElementByType, n1, n2, n3, n4, n5, n6, n7, n8, h2]
  refine ⟨hcreate, ?_⟩
  have hcs : createElementByType p s.type s.selector = none := by
    rw [hs]; exact hcreate s.selector
  simp [tryDbLoop, hcs]

/-- C10 witness: a `predicted_css` strategy is unrealizable and TRY_STORE
skips it. -/
theorem predicted_type_unrealizable_witness :
    createElementByType pageFail "predicted_css" ".x" = none ∧
    tryDbLoop pageFail stStore "x" 5000
        [⟨"predicted_css", ".x", 3⟩, ⟨"css", "#a", 1⟩]
      = tryDbLoop pageFail stStore "x" 5000 [⟨"css", "#a", 1⟩] := by
  have h := predicted_type_unrealizable pageFail "predicted_css" stStore "x" 5000
    ⟨"predicted_css", ".x", 3⟩ [⟨"css", "#a", 1⟩] (by decide) (by decide) rfl
  exact ⟨h.1 ".x", h.2⟩

/-- C8 (counterexample).  `get_element` derives its hints with no length
filter, and a token of length 3 changes the heuristic candidates: for
`locator_id = "ara_btn"` the hints are `["ara", "btn"]` (filtering by
length > 3 would leave nothing), and on a one-button page the exact
keyword match of the length-3 token `"ara"` produces a `button` candidate
that the filtered hint list does not produce. -/
theorem heuristic_short_token_counterexample :
    deriveHints "ara_btn" = ["ara", "btn"] ∧
    (["ara", "btn"].filter (fun h => decide (3 < h.length))) = [] ∧
    findTextBasedElements soupButton ["ara", "btn"]
      = [{ element := some { name := "button", attrs := [], text := "Git" },
           ctype := "css", selector := "button", score := 920 }] ∧
    findTextBasedElements soupButton [] = [] := by decide

/-- C8 (amended).  The hint tokens reaching the heuristic stage are *all*
tokens of `locator_id.lower().split('_')`.  The per-token scans — the
attribute-based generator, the form-element generator and the text-content
scan of the text-based generator — ignore tokens of length ≤ 3 (their
output is unchanged by dropping them), but the keyword-guarded selector
scans compare exact tokens with no length floor, so shorter tokens can
still influence candidates (see the counterexample). -/
theorem heuristic_hint_filter_spec (soup : Soup) (hints : List String)
    (lid : String) :
    deriveHints lid = splitUnderscore (lowerStr lid) ∧
    findAttributeBasedElements soup hints
      = findAttributeBasedElements soup
          (hints.filter (fun h => decide (3 < h.length))) ∧
    findFormElements soup hints
      = findFormElements soup (hints.filter (fun h => decide (3 < h.length))) ∧
    textHintSection soup hints
      = textHintSection soup (hints.filter (fun h => decide (3 < h.length))) := by
  refine ⟨rfl, ?_, ?_, ?_⟩
  · unfold findAttributeBasedElements
    have h1 : attrInputSelSection soup hints
        = attrInputSelSection soup (hints.filter (fun h => decide (3 < h.length))) := by
      unfold attrInputSelSection
      refine congrArg (List.flatMap attrInputSelectors) ?_
      funext sel
      refine congrArg (List.flatMap (soupSelect soup sel)) ?_
      funext t
      exact filterMap_guard_eq _ hints
    have h2 : attrHintSection soup hints
        = attrHintSection soup (hints.filter (fun h => decide (3 < h.length))) := by
      unfold attrHintSection
      exact flatMap_guard_eq _ hints
    rw [h1, h2]
  · unfold findFormElements
    exact flatMap_guard_eq _ hints
  · unfold textHintSection
    exact flatMap_guard_eq _ hints

/-- C2.  `resolve` raises the typed not-found error — which carries exactly
the requested locator id — precisely when all four cascade stages (stored
strategies, original selector, heuristic candidates, predicted candidates)
yield nothing; no other error value ever surfaces; and it returns an
element (with the updated state) exactly when some stage succeeds. -/
theorem resolve_not_found_iff {E} (p : PageModel E) (st : EngineState)
    (lid : String) (timeout : ℕ) (original_selector : Option String) :
    (getElement p st lid timeout original_selector
        = .error { locator_id := lid } ↔
      (tryDatabaseStrategies p st lid timeout = none ∧
       tryOriginalSelector p st lid original_selector timeout = none ∧
       tryBasicHealingStrategies p st lid (deriveHints lid) = none ∧
       tryPredictionStrategy p st lid (deriveHints lid) = none)) ∧
    (∀ err, getElement p st lid timeout original_selector = .error err →
      err = { locator_id := lid }) ∧
    ((∃ r, getElement p st lid timeout original_selector = .ok r) ↔
      ¬ (tryDatabaseStrategies p st lid timeout = none ∧
         tryOriginalSelector p st lid original_selector timeout = none ∧
         tryBasicHealingStrategies p st lid (deriveHints lid) = none ∧
         tryPredictionStrategy p st lid (deriveHints lid) = none)) := by
  cases h1 : tryDatabaseStrategies p st lid timeout with
  | some r => simp [getElement, h1]
  | none =>
    cases h2 : tryOriginalSelector p st lid original_selector timeout with
    | some r => simp [getElement, h1, h2]
    | none =>
      cases h3 : tryBasicHealingStrategies p st lid (deriveHints lid) with
      | some r => simp [getElement, h1, h2, h3]
      | none =>
        cases h4 : tryPredictionStrategy p st lid (deriveHints lid) with
        | some r => simp [getElement, h1, h2, h3, h4]
        | none =>
          refine ⟨by simp [getElement, h1, h2, h3, h4], ?_, ?_⟩
          · intro err herr
            simp only [getElement, h1, h2, h3, h4] at herr
            exact (Except.error.injEq _ _ ▸ herr).symm ▸ rfl
          · simp [getElement, h1, h2, h3, h4]

/-- C2 witness: on a page where every wait times out, with the fail-only
store, `resolve("x")` raises exactly the not-found error for `"x"`. -/
theorem resolve_not_found_iff_witness :
    getElement pageFail stStore "x" 5000 none
      = .error { locator_id := "x" } :=
  (resolve_not_found_iff pageFail stStore "x" 5000 none).1.mpr
    ⟨rfl, rfl, rfl, rfl⟩

/-- C3.  If a locator's list has distinct (type, selector) keys, every
strategy before index `k` fails its attempt, and the strategy `s` at index
`k > 0` succeeds, then TRY_STORE returns its element and the stored list
afterwards is exactly `s` moved to index 0 with every other entry kept in
its original relative order (`eraseIdx k` keeps the remainder in order). -/
theorem promotion_spec {E} (p : PageModel E) (st : EngineState) (lid : String)
    (timeout : ℕ) (l : List Strategy) (k : ℕ) (s : Strategy)
    (hdb : lookupDb st.locator_db lid = some l)
    (hnd : (stratKeys l).Nodup)
    (hk : l.get? k = some s) (_hkpos : 0 < k)
    (hfail : ∀ j s', j < k → l.get? j = some s' → stratFails p timeout s')
    (hsucc : stratSucceeds p timeout s) :
    ∃ e st', tryDatabaseStrategies p st lid timeout = some (e, st') ∧
      lookupDb st'.locator_db lid = some (s :: l.eraseIdx k) := by
  obtain ⟨e, hce, hwe, hloop⟩ := tryDbLoop_wins p st lid timeout l k s hk hfail hsucc
  refine ⟨e, promoteSuccessfulStrategy st lid s, ?_, ?_⟩
  · simp [tryDatabaseStrategies, hdb, hloop]
  · have hbase : lookupDb (promoteSuccessfulStrategy st lid s).locator_db lid
        = some (promoteStrats l s) := by
      simp only [promoteSuccessfulStrategy, hdb]
      exact lookupDb_update_self hdb _
    rw [hbase, promoteStrats, erase_eq_eraseIdx_of_keys_nodup hnd hk]

/-- C3 witness (the spec's Scenario B): index 0 broken, index 1 working —
after the call the working strategy is at index 0 and the broken one
follows it. -/
theorem promotion_spec_witness :
    ∃ e st', tryDatabaseStrategies pageOk stPromo "w" 5000 = some (e, st') ∧
      lookupDb st'.locator_db "w"
        = some [⟨"css", "#ok", 2⟩, ⟨"css", "#bad", 1⟩] := by
  have h := promotion_spec pageOk stPromo "w" 5000
    [⟨"css", "#bad", 1⟩, ⟨"css", "#ok", 2⟩] 1 ⟨"css", "#ok", 2⟩
    (by decide) (by decide) (by decide) (by decide)
    (by
      intro j s' hj hg
      have hj0 : j = 0 := Nat.lt_one_iff.mp hj
      subst hj0
      obtain rfl := Option.some_inj.mp hg
      exact Or.inr ⟨"#bad", rfl, rfl⟩)
    ⟨"#ok", rfl, rfl⟩
  exact h

/-- C6.  After `optimize()` each locator keeps at most one strategy per
type; each kept strategy is one of the original entries and carries the
maximal `last_used` among the original entries of its type; and `optimize`
is idempotent. -/
theorem optimize_spec (db : LocatorDb) (hnd : (db.map Prod.fst).Nodup)
    (lid : String) (strats strats' : List Strategy)
    (h : lookupDb db lid = some strats)
    (h' : lookupDb (optimizeDb db) lid = some strats') :
    (strats'.map Strategy.type).Nodup ∧
    (∀ s' ∈ strats', s' ∈ strats ∧
      ∀ s ∈ strats, s.type = s'.type → s.last_used ≤ s'.last_used) ∧
    optimizeDb (optimizeDb db) = optimizeDb db := by
  have hlk : lookupDb (optimizeDb db) lid = optimizeStrats strats := by
    show lookupDb (db.filterMap
      (fun e => (optimizeStrats e.2).map (fun v => (e.1, v)))) lid = _
    rw [lookupDb_filterMap hnd lid, h]
    rfl
  rw [hlk] at h'
  have hne : ¬ strats.isEmpty := by
    intro hc
    rw [optimizeStrats, if_pos hc] at h'
    cases h'
  have hs' : strats' = dedupByType [] (sortDescBy Strategy.last_used strats) := by
    rw [optimizeStrats, if_neg hne] at h'
    exact (Option.some_inj.mp h').symm
  refine ⟨?_, ?_, ?_⟩
  · rw [hs']; exact dedupByType_types_nodup _ _
  · intro s' hmem
    rw [hs'] at hmem
    refine ⟨(mem_sortDescBy _ _ _).mp (mem_dedupByType_sub hmem), ?_⟩
    intro s hsmem hty
    exact dedupByType_max (sortDescBy_pairwise _ _) hmem s
      ((mem_sortDescBy _ _ _).mpr hsmem) hty
  · show (optimizeDb db).filterMap
        (fun e => (optimizeStrats e.2).map (fun v => (e.1, v))) = optimizeDb db
    rw [show optimizeDb db = db.filterMap
        (fun e => (optimizeStrats e.2).map (fun v => (e.1, v))) from rfl,
      List.filterMap_filterMap]
    have hpt : ∀ e : String × List Strategy,
        ((optimizeStrats e.2).map (fun v => (e.1, v))).bind
          (fun b => (optimizeStrats b.2).map (fun v => (b.1, v)))
        = (optimizeStrats e.2).map (fun v => (e.1, v)) := by
      intro e
      cases hopt : optimizeStrats e.2 with
      | none => rfl
      | some v =>
        have hv : v = dedupByType [] (sortDescBy Strategy.last_used e.2) ∧
            ¬ e.2.isEmpty := by
          by_cases hcc : e.2.isEmpty
          · rw [optimizeStrats, if_pos hcc] at hopt; cases hopt
          · rw [optimizeStrats, if_neg hcc] at hopt
            exact ⟨(Option.some_inj.mp hopt).symm, hcc⟩
        have hvne : ¬ v.isEmpty := by
          rw [hv.1]
          intro hc
          exact dedupByType_ne_nil (by
            intro hc2
            rw [List.isEmpty_iff] at hc2
            have := (sortDescBy_perm Strategy.last_used e.2).length_eq
            rw [hc2] at this
            apply hv.2
            rw [List.isEmpty_iff]
            exact List.length_eq_zero.mp this.symm) (List.isEmpty_iff.mp hc)
        have hsorted : v.Pairwise (fun a b => b.last_used ≤ a.last_used) :=
          hv.1 ▸ List.Pairwise.sublist (dedupByType_sublist _ _)
            (sortDescBy_pairwise _ _)
        have hnds : (v.map Strategy.type).Nodup :=
          hv.1 ▸ dedupByType_types_nodup _ _
        have : optimizeStrats v = some v := by
          rw [optimizeStrats, if_neg hvne, sortDescBy_eq_self hsorted,
            dedupByType_eq_self hnds (by intro s _; exact List.not_mem_nil _)]
        simp [this]
    exact List.filterMap_congr (fun e _ => hpt e)

/-- C6 witness at a concrete store with two css strategies and one text
strategy. -/
theorem optimize_spec_witness :
    (([(⟨"css", "#2", 9⟩ : Strategy), ⟨"text", "t", 3⟩]).map Strategy.type).Nodup ∧
    optimizeDb (optimizeDb dbOpt) = optimizeDb dbOpt := by
  have h := optimize_spec dbOpt (by decide) "a"
    [⟨"css", "#1", 5⟩, ⟨"css", "#2", 9⟩, ⟨"text", "t", 3⟩]
    [⟨"css", "#2", 9⟩, ⟨"text", "t", 3⟩] (by decide) (by decide)
  exact ⟨h.1, h.2.2⟩

/-- C4 (counterexample).  With ten trained cases (and no other inputs) the
pool already holds eleven candidates, so the top-10 truncation drops the
candidate of the last trained case `s9` even though `train` recorded it —
the claim that every trained entry appears in `predict`'s result fails. -/
theorem predict_truncation_counterexample :
    (predictorPredict "x" "<html>" [] { trained_cases := cases10 }).length = 10 ∧
    (((predictorPredict "x" "<html>" [] { trained_cases := cases10 }).map
        Prediction.selector).contains "s9") = false ∧
    ({ selector := "s9", ptype := "css", score := 750 } : Prediction)
      ∈ predictAll "x" [] { trained_cases := cases10 } := by decide

/-- C4 (amended).  `predict` returns at most 10 candidates and ignores the
supplied html entirely; every trained case contributes its verbatim
(selector, type) candidate at the fixed trained-case score to the ranked
pool; and whenever at most 9 cases are trained, every such candidate
survives the top-10 truncation into the returned list. -/
theorem predict_spec (lid html html2 : String) (hints : List String)
    (md : ModelData) (c : TrainedCase) :
    (predictorPredict lid html hints md).length ≤ 10 ∧
    predictorPredict lid html hints md = predictorPredict lid html2 hints md ∧
    (c ∈ md.trained_cases →
      ({ selector := c.selector, ptype := c.selector_type, score := 750 }
        : Prediction) ∈ predictAll lid hints md ∧
      (md.trained_cases.length ≤ 9 →
        ({ selector := c.selector, ptype := c.selector_type, score := 750 }
          : Prediction) ∈ predictorPredict lid html hints md)) := by
  refine ⟨?_, rfl, ?_⟩
  · show ((sortDescBy Prediction.score (predictAll lid hints md)).take 10).length ≤ 10
    rw [List.length_take]
    omega
  · intro hc
    have hmem : ({ selector := c.selector, ptype := c.selector_type, score := 750 }
        : Prediction) ∈ predictAll lid hints md := by
      unfold predictAll
      exact List.mem_append.mpr (Or.inr (List.mem_map.mpr ⟨c, hc, rfl⟩))
    refine ⟨hmem, ?_⟩
    intro hlen
    have hcount : (predictAll lid hints md).countP
        (fun y => decide ((750 : ℤ) ≤ y.score)) ≤ 10 := by
      unfold predictAll
      rw [List.countP_append, List.countP_append]
      have h1 : ([({ selector := "#" ++ lid, ptype := "css", score := 800 }
          : Prediction)]).countP (fun y => decide ((750 : ℤ) ≤ y.score)) = 1 := by
        simp [List.countP_cons]
      have h2 : (hints.flatMap (fun h =>
          if h.length < 4 then ([] : List Prediction)
          else
            [({ selector := h, ptype := "text", score := 700 } : Prediction),
             { selector := "//*[contains(text(), '" ++ h ++ "')]",
               ptype := "xpath", score := 600 }])).countP
          (fun y => decide ((750 : ℤ) ≤ y.score)) = 0 := by
        rw [List.countP_eq_zero]
        intro a ha
        rcases List.mem_flatMap.mp ha with ⟨hh, _, hmem2⟩
        by_cases hl : hh.length < 4
        · simp [hl] at hmem2
        · rw [if_neg hl] at hmem2
          rcases List.mem_cons.mp hmem2 with rfl | hmem3
          · simp
          · rcases List.mem_cons.mp hmem3 with rfl | hmem4
            · simp
            · cases hmem4
      have h3 : ((md.trained_cases.map (fun cc =>
          ({ selector := cc.selector, ptype := cc.selector_type, score := 750 }
            : Prediction)))).countP
          (fun y => decide ((750 : ℤ) ≤ y.score)) = md.trained_cases.length := by
        rw [List.countP_eq_length.mpr, List.length_map]
        intro a ha
        rcases List.mem_map.mp ha with ⟨cc, _, rfl⟩
        simp
      rw [h1, h2, h3]
      omega
    have hsorted := sortDescBy_pairwise Prediction.score (predictAll lid hints md)
    have hmem2 : ({ selector := c.selector, ptype := c.selector_type, score := 750 }
        : Prediction) ∈ sortDescBy Prediction.score (predictAll lid hints md) :=
      (mem_sortDescBy _ _ _).mpr hmem
    have hcount2 : (sortDescBy Prediction.score (predictAll lid hints md)).countP
        (fun y => decide ((750 : ℤ) ≤ y.score)) ≤ 10 := by
      rw [(sortDescBy_perm Prediction.score (predictAll lid hints md)).countP_eq]
      exact hcount
    exact mem_take_of_count hsorted hmem2 (by simp) hcount2

/-- C4 witness (the spec's Scenario D): after training
`("x", ".y", css)`, `predict("x", anyHtml, hints)` contains `.y` at the
trained-case score whether or not `.y` occurs in the html. -/
theorem predict_spec_witness :
    ({ selector := ".y", ptype := "css", score := 750 } : Prediction)
      ∈ predictorPredict "x" "<html without .y>" [] mdOne := by
  have h := (predict_spec "x" "<html without .y>" "<other html>" [] mdOne
    { locator_id := "x", selector := ".y", selector_type := "css",
      timestamp := 7 }).2.2 (by decide)
  exact h.2 (by decide)

end SelfHealing
